import Mathlib

/-!
Verification of the purge/teardown orchestration engine (workflows/purge.go).

The Go source is shallowly embedded: pure helpers become Lean functions on
lists; the two workflows (`bucketTerminator`, `purgeWorker`) become functions
from an explicit collaborator environment (the results the injected
collaborators would return) to an event trace plus the returned error.
Go's `func() error` result is `Option String` (`none` = nil error); Go's
`(T, error)` collaborator results are `Except String T`.
-/

/-- A CloudFormation stack as used by the purge workflow (common.Stack).
`Tags` is the stack's tag map; keys are unique. -/
structure Stack where
  Name : String
  Status : String
  StatusReason : String
  Tags : List (String × String)
  deriving Repr, DecidableEq

/-- A physical resource owned by a stack (common.Resource); only the
`PhysicalResourceId` field is used by the purge workflow. -/
structure Resource where
  PhysicalResourceId : String
  deriving Repr, DecidableEq

/-- Modelled from the spec: the closed `StackType` enumeration (§3) lives in
the `common` package, which is not under src/. Values are the classification
strings used in the `type` tag: service, environment, pipeline, bucket, plus
the declared-but-not-yet-wired kinds (database, load balancer, vpc, repo,
schedule). -/
inductive StackType where
  | service
  | env
  | pipeline
  | bucket
  | database
  | loadbalancer
  | vpc
  | repo
  | schedule
  deriving Repr, DecidableEq

/-- The string value of a StackType (Go: `string(stackType)`). -/
def StackType.toStr : StackType → String
  | .service => "service"
  | .env => "environment"
  | .pipeline => "pipeline"
  | .bucket => "bucket"
  | .database => "database"
  | .loadbalancer => "loadbalancer"
  | .vpc => "vpc"
  | .repo => "repo"
  | .schedule => "schedule"

/-- Go map lookup `tags["key"]`: the zero value "" when the key is absent. -/
def tagsGet (tags : List (String × String)) (key : String) : String :=
  match tags.find? (fun p => p.1 == key) with
  | some p => p.2
  | none => ""

/-- Go comma-ok map lookup `_, ok := tags["key"]`. -/
def tagsHas (tags : List (String × String)) (key : String) : Bool :=
  (tags.find? (fun p => p.1 == key)).isSome

/-- cloudformation.StackStatusRollbackComplete (AWS SDK constant). -/
def StackStatusRollbackComplete : String := "ROLLBACK_COMPLETE"

/-- Inner loop of removeStacksByStatus: `found` after scanning `statuses`. -/
def stackStatusFound (stack : Stack) (statuses : List String) : Bool :=
  statuses.foldl (fun found status => if stack.Status == status then true else found) false

/-- removeStacksByStatus (purge.go): keep the stackList whose Status matched no
member of `statuses`, in order. -/
def removeStacksByStatus (stackList : List Stack) (statuses : List String) : List Stack :=
  stackList.foldl (fun ret stack => if !(stackStatusFound stack statuses) then ret ++ [stack] else ret) []

/-- filterStacksByType (purge.go): keep the stackList whose `type` tag equals
`string(stackType)`, in order. -/
def filterStacksByType (stackList : List Stack) (stackType : StackType) : List Stack :=
  stackList.foldl (fun ret stack => if tagsGet stack.Tags "type" == stackType.toStr then ret ++ [stack] else ret) []

/-- One observable event of the bucket termination workflow: a collaborator
call or a log line. Each log constructor corresponds to one logging call
site in bucketTerminator, carrying that site's format arguments. -/
inductive Event where
  | callGetResources
  | logInfoResources
  | logDebugDeleteBucket (fullname : String)
  | callDeleteS3BucketObjects (bucket : String)
  | callDeleteStack (name : String)
  | logErrorDeleteStackFailed (msg : String)
  | callAwaitFinalStatus (name : String)
  | logErrorEndedInFailedStatus (status reason : String)
  | callDeleteS3Bucket (bucket : String)
  | logErrorDeleteBucketFailed (bucket msg : String)
  deriving Repr, DecidableEq

/-- The results the injected collaborators return to one run of
bucketTerminator (stackLister, bucketObjectDeleter, stackDeleter,
stackWaiter, and ctx.StackManager as bucket deleter). These interfaces are
declared outside src/; here each is the value its one call site observes.
`getResourcesForStack` in its error case carries only the error, matching
the Go contract that the slice is its zero value (nil) alongside an error. -/
structure BucketEnv where
  getResourcesForStack : Except String (List Resource)
  deleteS3BucketObjects : String → Except String Unit
  deleteStack : Except String Unit
  awaitFinalStatus : Option Stack
  deleteS3Bucket : String → Except String Unit

/-- Go strings.HasSuffix (standard library): whether `suffix` is a suffix
of `s`. Modelled on the string's character sequence, which coincides with
Go's byte-level check on the ASCII stack statuses involved. -/
def hasSuffix (s suffix : String) : Bool := List.isSuffixOf suffix.data s.data

/-- bucketTerminator (purge.go): resolve the stack's physical resources
(returning the error, if any, after the info log); drain each bucket's
objects (result discarded); request stack deletion (failure logged); await
the terminal status (non-_COMPLETE status logged with its reason); then
delete each physical bucket (failures logged); return nil. The result is
the event trace paired with the returned error. -/
def bucketTerminator (bucket : Stack) (env : BucketEnv) : List Event × Option String :=
  let headEv := [Event.callGetResources, Event.logInfoResources]
  match env.getResourcesForStack with
  | .error e => (headEv, some e)
  | .ok resources =>
    let drainEv := resources.foldl (fun acc resource =>
      let fqBucketName := resource.PhysicalResourceId
      let _ := env.deleteS3BucketObjects fqBucketName
      acc ++ [Event.logDebugDeleteBucket fqBucketName,
              Event.callDeleteS3BucketObjects fqBucketName]) []
    let delEv := [Event.callDeleteStack bucket.Name] ++
      (match env.deleteStack with
       | .error e => [Event.logErrorDeleteStackFailed e]
       | .ok _ => [])
    let awaitEv := [Event.callAwaitFinalStatus bucket.Name] ++
      (match env.awaitFinalStatus with
       | some svcStack =>
         if !(hasSuffix svcStack.Status "_COMPLETE") then
           [Event.logErrorEndedInFailedStatus svcStack.Status svcStack.StatusReason]
         else []
       | none => [])
    let finalEv := resources.foldl (fun acc resource =>
      let fqBucketName := resource.PhysicalResourceId
      acc ++ [Event.callDeleteS3Bucket fqBucketName] ++
        (match env.deleteS3Bucket fqBucketName with
         | .error e2 => [Event.logErrorDeleteBucketFailed fqBucketName e2]
         | .ok _ => [])) []
    (headEv ++ drainEv ++ delEv ++ awaitEv ++ finalEv, none)

/-- The bucket names passed to DeleteS3BucketObjects, in call order. -/
def drainCalls (events : List Event) : List String :=
  events.filterMap (fun e => match e with
    | Event.callDeleteS3BucketObjects b => some b
    | _ => none)

/-- The bucket names passed to DeleteS3Bucket, in call order. -/
def physDeleteCalls (events : List Event) : List String :=
  events.filterMap (fun e => match e with
    | Event.callDeleteS3Bucket b => some b
    | _ => none)

/-- The (status, reason) pairs logged by the failed-terminal-status site. -/
def failedStatusLogs (events : List Event) : List (String × String) :=
  events.filterMap (fun e => match e with
    | Event.logErrorEndedInFailedStatus s r => some (s, r)
    | _ => none)

/-- One opaque step of the assembled purge plan. Each constructor names the
sub-workflow executor appended by purgeWorker, carrying the parameters the
call site passes (the injected managers are elided; `ns` is
ctx.Config.Namespace). The step implementations live outside src/, so the
orchestrator treats them as opaque labels, exactly as the spec's §2 says. -/
inductive Step where
  | serviceInput (service : String)
  | serviceUndeployer (ns environment : String)
  | environmentServiceTerminator (envName : String)
  | environmentDbTerminator (envName : String)
  | environmentEcsTerminator (ns envName : String)
  | environmentConsulTerminator (ns envName : String)
  | environmentRolesetTerminator (envName : String)
  | environmentElbTerminator (ns envName : String)
  | environmentVpcTerminator (ns envName : String)
  | serviceFinder (service : String)
  | pipelineTerminator (ns : String)
  | pipelineRolesetTerminator
  | bucketWorkflow (bucket : Stack)
  deriving Repr, DecidableEq

/-- The plan-assembly portion of purgeWorker (purge.go, the four loops that
append to `executors`), applied to the already status-filtered inventory. -/
def purgePlan (stackList : List Stack) (ns : String) : List Step :=
  let executors : List Step := []
  let executors := (filterStacksByType stackList StackType.service).foldl
    (fun ex stack =>
      ex ++ [Step.serviceInput (tagsGet stack.Tags "service")]
         ++ [Step.serviceUndeployer ns (tagsGet stack.Tags "environment")]) executors
  let executors := (filterStacksByType stackList StackType.env).foldl
    (fun ex stack =>
      let envName := tagsGet stack.Tags "environment"
      ex ++ [Step.environmentServiceTerminator envName]
         ++ [Step.environmentDbTerminator envName]
         ++ [Step.environmentEcsTerminator ns envName]
         ++ [Step.environmentConsulTerminator ns envName]
         ++ [Step.environmentRolesetTerminator envName]
         ++ [Step.environmentElbTerminator ns envName]
         ++ [Step.environmentVpcTerminator ns envName]) executors
  let executors := (filterStacksByType stackList StackType.pipeline).foldl
    (fun ex codePipeline =>
      ex ++ [Step.serviceFinder (tagsGet codePipeline.Tags "service")]
         ++ [Step.pipelineTerminator ns]
         ++ [Step.pipelineRolesetTerminator]) executors
  let executors := (filterStacksByType stackList StackType.bucket).foldl
    (fun ex bucket => ex ++ [Step.bucketWorkflow bucket]) executors
  executors

/-- Modelled from the spec: newPipelineExecutorNoStop is defined outside
src/ (§4.2 continue-on-error composition): it executes every member in
order regardless of prior failures, records each failure individually, and
the composite itself signals success once all members have run. A step's
behaviour is its outcome `runStep step` (`none` = success). The result is
the steps executed in order, paired with the failures recorded. -/
def newPipelineExecutorNoStop (executors : List Step) (runStep : Step → Option String) : List Step × List String :=
  executors.foldl (fun acc step =>
    match runStep step with
    | some e => (acc.1 ++ [step], acc.2 ++ [e])
    | none => (acc.1 ++ [step], acc.2)) ([], [])

/-- The inputs of one purgeWorker run: the stackLister's ListStacks result
(ListStacks is declared outside src/; its error case carries only the
error, matching the Go contract that the slice is its zero value alongside
an error — the spec's §4.4 step 1 treats a fetch failure as an empty
inventory), ctx.Config.Namespace, and each plan step's outcome. -/
structure PurgeEnv where
  listStacks : Except String (List Stack)
  ns : String

/-- The observable outcome of one purgeWorker run. -/
structure PurgeOutcome where
  warnedListFailure : Bool
  tableRowCount : Nat
  plan : List Step
  executed : List Step
  failureLogs : List String
  result : Option String
  deriving Repr, DecidableEq

/-- purgeWorker (purge.go): list all stacks (a failure is logged as a
warning and leaves the zero-value inventory); drop ROLLBACK_COMPLETE
stacks; render one table row per stack having a `type` tag; assemble the
plan (the four loops, embedded as purgePlan); run it with
newPipelineExecutorNoStop, discarding the composite's result; return nil. -/
def purgeWorker (env : PurgeEnv) (runStep : Step → Option String) : PurgeOutcome :=
  let warned := match env.listStacks with
    | .error _ => true
    | .ok _ => false
  let stacks0 := match env.listStacks with
    | .error _ => []
    | .ok s => s
  let stacks1 := removeStacksByStatus stacks0 [StackStatusRollbackComplete]
  let stackCount := (stacks1.filter (fun stack => tagsHas stack.Tags "type")).length
  let executors := purgePlan stacks1 env.ns
  let ran := newPipelineExecutorNoStop executors runStep
  { warnedListFailure := warned
    tableRowCount := stackCount
    plan := executors
    executed := ran.1
    failureLogs := ran.2
    result := none }

/-- Modelled from the spec: which terminal stack statuses "indicate full
success" (§4.3 step 4). The spec's data model distinguishes
"completed/rolled-back/failed states" (§3) and calls ROLLBACK_COMPLETE a
non-actionable "failed-rollback state" (§4.1), so full success means the
operation's own _COMPLETE states, not the rolled-back or failed ones. -/
def specIndicatesFullSuccess (status : String) : Bool :=
  status == "CREATE_COMPLETE" || status == "UPDATE_COMPLETE" ||
  status == "DELETE_COMPLETE" || status == "IMPORT_COMPLETE"

/-! Helper lemmas: the Go accumulate-by-append loops, rewritten as filters
and flattened maps. -/

theorem stackStatusFound_eq_contains (stack : Stack) (statuses : List String) :
    stackStatusFound stack statuses = statuses.contains stack.Status := by
  rw [stackStatusFound]
  suffices h : ∀ b, List.foldl (fun found status => if stack.Status == status then true else found) b statuses = (b || statuses.contains stack.Status) by
    rw [h false, Bool.false_or]
  induction statuses with
  | nil =>
    intro b
    rw [List.foldl_nil]
    show b = (b || false)
    rw [Bool.or_false]
  | cons s t ih =>
    intro b
    rw [List.foldl_cons, ih, List.contains_cons]
    show ((if stack.Status == s then true else b) || t.contains stack.Status)
        = (b || ((stack.Status == s) || t.contains stack.Status))
    cases hs : stack.Status == s
    · rw [if_neg Bool.false_ne_true, Bool.false_or]
    · rw [if_pos rfl, Bool.true_or, Bool.or_true]

theorem removeStacksByStatus_eq_filter (stackList : List Stack) (statuses : List String) :
    removeStacksByStatus stackList statuses
      = stackList.filter (fun stack => !(statuses.contains stack.Status)) := by
  rw [removeStacksByStatus]
  suffices h : ∀ init, List.foldl (fun ret stack => if !(stackStatusFound stack statuses) then ret ++ [stack] else ret) init stackList = init ++ stackList.filter (fun stack => !(statuses.contains stack.Status)) by
    rw [h [], List.nil_append]
  induction stackList with
  | nil =>
    intro init
    rw [List.foldl_nil, List.filter_nil, List.append_nil]
  | cons s t ih =>
    intro init
    rw [List.foldl_cons, ih, List.filter_cons]
    show (if !(stackStatusFound s statuses) then init ++ [s] else init)
           ++ t.filter (fun stack => !(statuses.contains stack.Status))
        = init ++ (if !(statuses.contains s.Status)
            then s :: t.filter (fun stack => !(statuses.contains stack.Status))
            else t.filter (fun stack => !(statuses.contains stack.Status)))
    rw [stackStatusFound_eq_contains]
    cases hc : statuses.contains s.Status
    · rw [if_pos Bool.not_false, if_pos Bool.not_false, List.append_assoc, List.singleton_append]
    · have hn : ¬((!true) = true) := by decide
      rw [if_neg hn, if_neg hn]

theorem filterStacksByType_eq_filter (stackList : List Stack) (t : StackType) :
    filterStacksByType stackList t
      = stackList.filter (fun stack => tagsGet stack.Tags "type" == t.toStr) := by
  rw [filterStacksByType]
  suffices h : ∀ init, List.foldl (fun ret stack => if tagsGet stack.Tags "type" == t.toStr then ret ++ [stack] else ret) init stackList = init ++ stackList.filter (fun stack => tagsGet stack.Tags "type" == t.toStr) by
    rw [h [], List.nil_append]
  induction stackList with
  | nil =>
    intro init
    rw [List.foldl_nil, List.filter_nil, List.append_nil]
  | cons s l ih =>
    intro init
    rw [List.foldl_cons, ih, List.filter_cons]
    show (if tagsGet s.Tags "type" == t.toStr then init ++ [s] else init)
           ++ l.filter (fun stack => tagsGet stack.Tags "type" == t.toStr)
        = init ++ (if tagsGet s.Tags "type" == t.toStr
            then s :: l.filter (fun stack => tagsGet stack.Tags "type" == t.toStr)
            else l.filter (fun stack => tagsGet stack.Tags "type" == t.toStr))
    cases hp : tagsGet s.Tags "type" == t.toStr
    · rw [if_neg Bool.false_ne_true, if_neg Bool.false_ne_true]
    · rw [if_pos rfl, if_pos rfl, List.append_assoc, List.singleton_append]

theorem StackType.toStr_ne_empty (t : StackType) : t.toStr ≠ "" := by
  cases t <;> decide

theorem serviceFold_eq (ns : String) (l : List Stack) :
    ∀ init : List Step,
      List.foldl (fun ex stack =>
        ex ++ [Step.serviceInput (tagsGet stack.Tags "service")]
           ++ [Step.serviceUndeployer ns (tagsGet stack.Tags "environment")]) init l
      = init ++ (l.map (fun stack =>
          [Step.serviceInput (tagsGet stack.Tags "service"),
           Step.serviceUndeployer ns (tagsGet stack.Tags "environment")])).flatten := by
  induction l with
  | nil => intro init; simp
  | cons s t ih =>
    intro init
    rw [List.foldl_cons, ih]
    simp [List.append_assoc]

theorem envFold_eq (ns : String) (l : List Stack) :
    ∀ init : List Step,
      List.foldl (fun ex stack =>
        ex ++ [Step.environmentServiceTerminator (tagsGet stack.Tags "environment")]
           ++ [Step.environmentDbTerminator (tagsGet stack.Tags "environment")]
           ++ [Step.environmentEcsTerminator ns (tagsGet stack.Tags "environment")]
           ++ [Step.environmentConsulTerminator ns (tagsGet stack.Tags "environment")]
           ++ [Step.environmentRolesetTerminator (tagsGet stack.Tags "environment")]
           ++ [Step.environmentElbTerminator ns (tagsGet stack.Tags "environment")]
           ++ [Step.environmentVpcTerminator ns (tagsGet stack.Tags "environment")]) init l
      = init ++ (l.map (fun stack =>
          [Step.environmentServiceTerminator (tagsGet stack.Tags "environment"),
           Step.environmentDbTerminator (tagsGet stack.Tags "environment"),
           Step.environmentEcsTerminator ns (tagsGet stack.Tags "environment"),
           Step.environmentConsulTerminator ns (tagsGet stack.Tags "environment"),
           Step.environmentRolesetTerminator (tagsGet stack.Tags "environment"),
           Step.environmentElbTerminator ns (tagsGet stack.Tags "environment"),
           Step.environmentVpcTerminator ns (tagsGet stack.Tags "environment")])).flatten := by
  induction l with
  | nil => intro init; simp
  | cons s t ih =>
    intro init
    rw [List.foldl_cons, ih]
    simp [List.append_assoc]

theorem pipelineFold_eq (ns : String) (l : List Stack) :
    ∀ init : List Step,
      List.foldl (fun ex codePipeline =>
        ex ++ [Step.serviceFinder (tagsGet codePipeline.Tags "service")]
           ++ [Step.pipelineTerminator ns]
           ++ [Step.pipelineRolesetTerminator]) init l
      = init ++ (l.map (fun codePipeline =>
          [Step.serviceFinder (tagsGet codePipeline.Tags "service"),
           Step.pipelineTerminator ns,
           Step.pipelineRolesetTerminator])).flatten := by
  induction l with
  | nil => intro init; simp
  | cons s t ih =>
    intro init
    rw [List.foldl_cons, ih]
    simp [List.append_assoc]

theorem bucketFold_eq (l : List Stack) :
    ∀ init : List Step,
      List.foldl (fun ex bucket => ex ++ [Step.bucketWorkflow bucket]) init l
      = init ++ (l.map (fun bucket => [Step.bucketWorkflow bucket])).flatten := by
  induction l with
  | nil => intro init; simp
  | cons s t ih =>
    intro init
    rw [List.foldl_cons, ih]
    simp [List.append_assoc]

theorem purgePlan_eq_flatten (stackList : List Stack) (ns : String) :
    purgePlan stackList ns =
      ((filterStacksByType stackList StackType.service).map (fun stack =>
          [Step.serviceInput (tagsGet stack.Tags "service"),
           Step.serviceUndeployer ns (tagsGet stack.Tags "environment")])).flatten
      ++ ((filterStacksByType stackList StackType.env).map (fun stack =>
          [Step.environmentServiceTerminator (tagsGet stack.Tags "environment"),
           Step.environmentDbTerminator (tagsGet stack.Tags "environment"),
           Step.environmentEcsTerminator ns (tagsGet stack.Tags "environment"),
           Step.environmentConsulTerminator ns (tagsGet stack.Tags "environment"),
           Step.environmentRolesetTerminator (tagsGet stack.Tags "environment"),
           Step.environmentElbTerminator ns (tagsGet stack.Tags "environment"),
           Step.environmentVpcTerminator ns (tagsGet stack.Tags "environment")])).flatten
      ++ ((filterStacksByType stackList StackType.pipeline).map (fun codePipeline =>
          [Step.serviceFinder (tagsGet codePipeline.Tags "service"),
           Step.pipelineTerminator ns,
           Step.pipelineRolesetTerminator])).flatten
      ++ ((filterStacksByType stackList StackType.bucket).map (fun bucket =>
          [Step.bucketWorkflow bucket])).flatten := by
  simp only [purgePlan]
  rw [bucketFold_eq, pipelineFold_eq, envFold_eq, serviceFold_eq, List.nil_append,
    List.append_assoc, List.append_assoc]

theorem drainFold_eq (rs : List Resource) :
    ∀ acc : List Event,
      List.foldl (fun acc resource =>
        acc ++ [Event.logDebugDeleteBucket resource.PhysicalResourceId,
                Event.callDeleteS3BucketObjects resource.PhysicalResourceId]) acc rs
      = acc ++ (rs.map (fun r =>
          [Event.logDebugDeleteBucket r.PhysicalResourceId,
           Event.callDeleteS3BucketObjects r.PhysicalResourceId])).flatten := by
  induction rs with
  | nil => intro acc; simp
  | cons r t ih =>
    intro acc
    rw [List.foldl_cons, ih]
    simp [List.append_assoc]

theorem finalFold_eq (env : BucketEnv) (rs : List Resource) :
    ∀ acc : List Event,
      List.foldl (fun acc resource =>
        acc ++ [Event.callDeleteS3Bucket resource.PhysicalResourceId] ++
          (match env.deleteS3Bucket resource.PhysicalResourceId with
           | .error e2 => [Event.logErrorDeleteBucketFailed resource.PhysicalResourceId e2]
           | .ok _ => [])) acc rs
      = acc ++ (rs.map (fun r =>
          [Event.callDeleteS3Bucket r.PhysicalResourceId] ++
            (match env.deleteS3Bucket r.PhysicalResourceId with
             | .error e2 => [Event.logErrorDeleteBucketFailed r.PhysicalResourceId e2]
             | .ok _ => []))).flatten := by
  induction rs with
  | nil => intro acc; simp
  | cons r t ih =>
    intro acc
    rw [List.foldl_cons, ih]
    simp [List.append_assoc]

/-- The trace of a bucketTerminator run whose resource resolution returned
`rs`, decomposed into its five phases, and its nil result. -/
theorem bucketTerminator_ok_trace (b : Stack) (env : BucketEnv) (rs : List Resource)
    (h : env.getResourcesForStack = Except.ok rs) :
    (bucketTerminator b env).1 =
      [Event.callGetResources, Event.logInfoResources]
      ++ (rs.map (fun r =>
          [Event.logDebugDeleteBucket r.PhysicalResourceId,
           Event.callDeleteS3BucketObjects r.PhysicalResourceId])).flatten
      ++ ([Event.callDeleteStack b.Name] ++
          (match env.deleteStack with
           | .error e => [Event.logErrorDeleteStackFailed e]
           | .ok _ => []))
      ++ ([Event.callAwaitFinalStatus b.Name] ++
          (match env.awaitFinalStatus with
           | some svcStack =>
             if !(hasSuffix svcStack.Status "_COMPLETE") then
               [Event.logErrorEndedInFailedStatus svcStack.Status svcStack.StatusReason]
             else []
           | none => []))
      ++ (rs.map (fun r =>
          [Event.callDeleteS3Bucket r.PhysicalResourceId] ++
            (match env.deleteS3Bucket r.PhysicalResourceId with
             | .error e2 => [Event.logErrorDeleteBucketFailed r.PhysicalResourceId e2]
             | .ok _ => []))).flatten
    ∧ (bucketTerminator b env).2 = none := by
  constructor
  · simp only [bucketTerminator, h]
    rw [drainFold_eq, finalFold_eq, List.nil_append, List.nil_append]
  · simp only [bucketTerminator, h]

theorem bucketTerminator_error_eq (b : Stack) (env : BucketEnv) (e : String)
    (h : env.getResourcesForStack = Except.error e) :
    bucketTerminator b env = ([Event.callGetResources, Event.logInfoResources], some e) := by
  simp only [bucketTerminator, h]

theorem drainCalls_append (l l' : List Event) :
    drainCalls (l ++ l') = drainCalls l ++ drainCalls l' := by
  simp [drainCalls]

theorem physDeleteCalls_append (l l' : List Event) :
    physDeleteCalls (l ++ l') = physDeleteCalls l ++ physDeleteCalls l' := by
  simp [physDeleteCalls]

theorem failedStatusLogs_append (l l' : List Event) :
    failedStatusLogs (l ++ l') = failedStatusLogs l ++ failedStatusLogs l' := by
  simp [failedStatusLogs]

theorem drainCalls_drainFlatten (rs : List Resource) :
    drainCalls ((rs.map (fun r =>
      [Event.logDebugDeleteBucket r.PhysicalResourceId,
       Event.callDeleteS3BucketObjects r.PhysicalResourceId])).flatten)
    = rs.map Resource.PhysicalResourceId := by
  induction rs with
  | nil => simp [drainCalls]
  | cons r t ih => simpa [drainCalls] using ih

theorem physDeleteCalls_drainFlatten (rs : List Resource) :
    physDeleteCalls ((rs.map (fun r =>
      [Event.logDebugDeleteBucket r.PhysicalResourceId,
       Event.callDeleteS3BucketObjects r.PhysicalResourceId])).flatten) = [] := by
  induction rs with
  | nil => simp [physDeleteCalls]
  | cons r t ih => simpa [physDeleteCalls] using ih

theorem failedStatusLogs_drainFlatten (rs : List Resource) :
    failedStatusLogs ((rs.map (fun r =>
      [Event.logDebugDeleteBucket r.PhysicalResourceId,
       Event.callDeleteS3BucketObjects r.PhysicalResourceId])).flatten) = [] := by
  induction rs with
  | nil => simp [failedStatusLogs]
  | cons r t ih => simpa [failedStatusLogs] using ih

theorem drainCalls_finalFlatten (env : BucketEnv) (rs : List Resource) :
    drainCalls ((rs.map (fun r =>
      [Event.callDeleteS3Bucket r.PhysicalResourceId] ++
        (match env.deleteS3Bucket r.PhysicalResourceId with
         | .error e2 => [Event.logErrorDeleteBucketFailed r.PhysicalResourceId e2]
         | .ok _ => []))).flatten) = [] := by
  induction rs with
  | nil => simp [drainCalls]
  | cons r t ih =>
    cases hf : env.deleteS3Bucket r.PhysicalResourceId with
    | error e2 => simpa [drainCalls, hf] using ih
    | ok u => simpa [drainCalls, hf] using ih

theorem physDeleteCalls_finalFlatten (env : BucketEnv) (rs : List Resource) :
    physDeleteCalls ((rs.map (fun r =>
      [Event.callDeleteS3Bucket r.PhysicalResourceId] ++
        (match env.deleteS3Bucket r.PhysicalResourceId with
         | .error e2 => [Event.logErrorDeleteBucketFailed r.PhysicalResourceId e2]
         | .ok _ => []))).flatten)
    = rs.map Resource.PhysicalResourceId := by
  induction rs with
  | nil => simp [physDeleteCalls]
  | cons r t ih =>
    cases hf : env.deleteS3Bucket r.PhysicalResourceId with
    | error e2 => simpa [physDeleteCalls, hf] using ih
    | ok u => simpa [physDeleteCalls, hf] using ih

theorem failedStatusLogs_finalFlatten (env : BucketEnv) (rs : List Resource) :
    failedStatusLogs ((rs.map (fun r =>
      [Event.callDeleteS3Bucket r.PhysicalResourceId] ++
        (match env.deleteS3Bucket r.PhysicalResourceId with
         | .error e2 => [Event.logErrorDeleteBucketFailed r.PhysicalResourceId e2]
         | .ok _ => []))).flatten) = [] := by
  induction rs with
  | nil => simp [failedStatusLogs]
  | cons r t ih =>
    cases hf : env.deleteS3Bucket r.PhysicalResourceId with
    | error e2 => simpa [failedStatusLogs, hf] using ih
    | ok u => simpa [failedStatusLogs, hf] using ih

theorem newPipelineExecutorNoStop_executed (executors : List Step) (runStep : Step → Option String) :
    (newPipelineExecutorNoStop executors runStep).1 = executors := by
  rw [newPipelineExecutorNoStop]
  suffices h : ∀ (a : List Step) (b : List String),
      (List.foldl (fun acc step =>
        match runStep step with
        | some e => (acc.1 ++ [step], acc.2 ++ [e])
        | none => (acc.1 ++ [step], acc.2)) (a, b) executors).1 = a ++ executors by
    rw [h [] [], List.nil_append]
  induction executors with
  | nil => intro a b; simp
  | cons s t ih =>
    intro a b
    rw [List.foldl_cons]
    cases hr : runStep s <;> simp [hr, ih, List.append_assoc]

theorem drainCalls_deleteStackEvents (env : BucketEnv) :
    drainCalls (match env.deleteStack with
      | .error e => [Event.logErrorDeleteStackFailed e]
      | .ok _ => []) = [] := by
  cases env.deleteStack <;> simp [drainCalls]

theorem physDeleteCalls_deleteStackEvents (env : BucketEnv) :
    physDeleteCalls (match env.deleteStack with
      | .error e => [Event.logErrorDeleteStackFailed e]
      | .ok _ => []) = [] := by
  cases env.deleteStack <;> simp [physDeleteCalls]

theorem failedStatusLogs_deleteStackEvents (env : BucketEnv) :
    failedStatusLogs (match env.deleteStack with
      | .error e => [Event.logErrorDeleteStackFailed e]
      | .ok _ => []) = [] := by
  cases env.deleteStack <;> simp [failedStatusLogs]

theorem drainCalls_awaitEvents (env : BucketEnv) :
    drainCalls (match env.awaitFinalStatus with
      | some svcStack =>
        if !(hasSuffix svcStack.Status "_COMPLETE") then
          [Event.logErrorEndedInFailedStatus svcStack.Status svcStack.StatusReason]
        else []
      | none => []) = [] := by
  cases env.awaitFinalStatus with
  | none => simp [drainCalls]
  | some st => cases hE : hasSuffix st.Status "_COMPLETE" <;> simp [hE, drainCalls]

theorem physDeleteCalls_awaitEvents (env : BucketEnv) :
    physDeleteCalls (match env.awaitFinalStatus with
      | some svcStack =>
        if !(hasSuffix svcStack.Status "_COMPLETE") then
          [Event.logErrorEndedInFailedStatus svcStack.Status svcStack.StatusReason]
        else []
      | none => []) = [] := by
  cases env.awaitFinalStatus with
  | none => simp [physDeleteCalls]
  | some st => cases hE : hasSuffix st.Status "_COMPLETE" <;> simp [hE, physDeleteCalls]

theorem failedStatusLogs_awaitEvents (env : BucketEnv) (st : Stack)
    (h : env.awaitFinalStatus = some st) :
    failedStatusLogs (match env.awaitFinalStatus with
      | some svcStack =>
        if !(hasSuffix svcStack.Status "_COMPLETE") then
          [Event.logErrorEndedInFailedStatus svcStack.Status svcStack.StatusReason]
        else []
      | none => [])
    = if hasSuffix st.Status "_COMPLETE" then [] else [(st.Status, st.StatusReason)] := by
  rw [h]
  cases hE : hasSuffix st.Status "_COMPLETE" <;> simp [hE, failedStatusLogs]

/-! Concrete inputs used by the witness and counterexample theorems. -/

def stackSvcWeb : Stack :=
  { Name := "svc-web", Status := "UPDATE_COMPLETE", StatusReason := ""
    Tags := [("type", "service"), ("service", "web"), ("environment", "prod")] }

def stackNoType : Stack :=
  { Name := "mystery", Status := "CREATE_COMPLETE", StatusReason := ""
    Tags := [("service", "web")] }

def resLogsA : Resource := { PhysicalResourceId := "logs-bucket-a" }

def resLogsB : Resource := { PhysicalResourceId := "logs-bucket-b" }

def stackLogsBucket : Stack :=
  { Name := "logs-bucket", Status := "CREATE_COMPLETE", StatusReason := ""
    Tags := [("type", "bucket")] }

def stackDeleteFailed : Stack :=
  { Name := "logs-bucket", Status := "DELETE_FAILED", StatusReason := "delete failed"
    Tags := [("type", "bucket")] }

def stackRolledBack : Stack :=
  { Name := "logs-bucket", Status := "ROLLBACK_COMPLETE", StatusReason := "creation failed"
    Tags := [("type", "bucket")] }

def envTwoBuckets : BucketEnv :=
  { getResourcesForStack := Except.ok [resLogsA, resLogsB]
    deleteS3BucketObjects := fun _ => Except.ok ()
    deleteStack := Except.error "delete stack failed"
    awaitFinalStatus := some stackDeleteFailed
    deleteS3Bucket := fun _ => Except.error "bucket delete failed" }

def envRolledBack : BucketEnv :=
  { getResourcesForStack := Except.ok []
    deleteS3BucketObjects := fun _ => Except.ok ()
    deleteStack := Except.ok ()
    awaitFinalStatus := some stackRolledBack
    deleteS3Bucket := fun _ => Except.ok () }

def envResourcesError : BucketEnv :=
  { getResourcesForStack := Except.error "describe resources failed"
    deleteS3BucketObjects := fun _ => Except.ok ()
    deleteStack := Except.ok ()
    awaitFinalStatus := none
    deleteS3Bucket := fun _ => Except.ok () }

/-- C1: for every (already status-filtered) inventory, the assembled plan is
exactly the service steps (two per service stack), then for every
environment stack the seven sub-steps in the fixed order service-terminator
sweep, database, container-cluster (ECS), service-mesh/discovery-agent
(Consul), access-role (roleset), load-balancer (ELB), network (VPC),
then the three pipeline sub-steps per pipeline stack, then one bucket
workflow per bucket stack — never interleaved differently; and purgeWorker
runs exactly this plan on its filtered inventory. -/
theorem purge_plan_fixed_kind_order (stackList : List Stack) (ns : String) :
    (purgePlan stackList ns =
      ((filterStacksByType stackList StackType.service).map (fun stack =>
          [Step.serviceInput (tagsGet stack.Tags "service"),
           Step.serviceUndeployer ns (tagsGet stack.Tags "environment")])).flatten
      ++ ((filterStacksByType stackList StackType.env).map (fun stack =>
          [Step.environmentServiceTerminator (tagsGet stack.Tags "environment"),
           Step.environmentDbTerminator (tagsGet stack.Tags "environment"),
           Step.environmentEcsTerminator ns (tagsGet stack.Tags "environment"),
           Step.environmentConsulTerminator ns (tagsGet stack.Tags "environment"),
           Step.environmentRolesetTerminator (tagsGet stack.Tags "environment"),
           Step.environmentElbTerminator ns (tagsGet stack.Tags "environment"),
           Step.environmentVpcTerminator ns (tagsGet stack.Tags "environment")])).flatten
      ++ ((filterStacksByType stackList StackType.pipeline).map (fun codePipeline =>
          [Step.serviceFinder (tagsGet codePipeline.Tags "service"),
           Step.pipelineTerminator ns,
           Step.pipelineRolesetTerminator])).flatten
      ++ ((filterStacksByType stackList StackType.bucket).map (fun bucket =>
          [Step.bucketWorkflow bucket])).flatten)
    ∧ ∀ (env : PurgeEnv) (r : Step → Option String),
        (purgeWorker env r).plan =
          purgePlan (removeStacksByStatus
            (match env.listStacks with
             | .error _ => []
             | .ok s => s) [StackStatusRollbackComplete]) env.ns := by
  constructor
  · exact purgePlan_eq_flatten stackList ns
  · intro env r
    simp only [purgeWorker]

/-- C4: filterStacksByType returns exactly the stacks whose `type` tag
equals the given type's string value, preserving order, and a stack with no
`type` tag is never selected for any type. -/
theorem filter_by_type_exact (stackList : List Stack) (t : StackType) :
    (filterStacksByType stackList t
      = stackList.filter (fun stack => tagsGet stack.Tags "type" == t.toStr))
    ∧ ∀ stack : Stack, stack.Tags.find? (fun p => p.1 == "type") = none →
        stack ∉ filterStacksByType stackList t := by
  refine ⟨filterStacksByType_eq_filter stackList t, ?_⟩
  intro stack hnone hmem
  rw [filterStacksByType_eq_filter] at hmem
  have hsel : (tagsGet stack.Tags "type" == t.toStr) = true := (List.mem_filter.mp hmem).2
  have hempty : tagsGet stack.Tags "type" = "" := by
    rw [tagsGet, hnone]
  rw [hempty] at hsel
  have heq : "" = t.toStr := by simpa using hsel
  exact StackType.toStr_ne_empty t heq.symm

/-- C5: removeStacksByStatus returns exactly the stacks whose Status is not
a member of the exclusion list, preserving order, and with an empty
exclusion list it returns the input unchanged. -/
theorem remove_by_status_exact (stackList : List Stack) (statuses : List String) :
    (removeStacksByStatus stackList statuses
      = stackList.filter (fun stack => !(statuses.contains stack.Status)))
    ∧ removeStacksByStatus stackList [] = stackList := by
  refine ⟨removeStacksByStatus_eq_filter stackList statuses, ?_⟩
  rw [removeStacksByStatus_eq_filter]
  simp

/-- C2: when resource resolution yields `rs`, the bucket workflow calls
DeleteS3BucketObjects (the object drain) exactly once per resource, all
before the DeleteStack call, and calls DeleteS3Bucket (the physical bucket
deletion) exactly once per resource whatever the DeleteStack and
terminal-status results were (the environment is arbitrary). -/
theorem bucket_drain_before_delete_phys_always (b : Stack) (env : BucketEnv) (rs : List Resource)
    (h : env.getResourcesForStack = Except.ok rs) :
    ∃ pre post,
      (bucketTerminator b env).1 = pre ++ Event.callDeleteStack b.Name :: post
      ∧ drainCalls pre = rs.map Resource.PhysicalResourceId
      ∧ drainCalls post = []
      ∧ physDeleteCalls (bucketTerminator b env).1 = rs.map Resource.PhysicalResourceId := by
  obtain ⟨htr, hres⟩ := bucketTerminator_ok_trace b env rs h
  refine ⟨[Event.callGetResources, Event.logInfoResources]
      ++ (rs.map (fun r =>
          [Event.logDebugDeleteBucket r.PhysicalResourceId,
           Event.callDeleteS3BucketObjects r.PhysicalResourceId])).flatten,
    (match env.deleteStack with
     | .error e => [Event.logErrorDeleteStackFailed e]
     | .ok _ => [])
    ++ ([Event.callAwaitFinalStatus b.Name] ++
        (match env.awaitFinalStatus with
         | some svcStack =>
           if !(hasSuffix svcStack.Status "_COMPLETE") then
             [Event.logErrorEndedInFailedStatus svcStack.Status svcStack.StatusReason]
           else []
         | none => []))
    ++ (rs.map (fun r =>
        [Event.callDeleteS3Bucket r.PhysicalResourceId] ++
          (match env.deleteS3Bucket r.PhysicalResourceId with
           | .error e2 => [Event.logErrorDeleteBucketFailed r.PhysicalResourceId e2]
           | .ok _ => []))).flatten, ?_, ?_, ?_, ?_⟩
  · rw [htr]
    simp [List.append_assoc]
  · rw [drainCalls_append, drainCalls_drainFlatten]
    simp [drainCalls]
  · simp only [drainCalls_append, drainCalls_deleteStackEvents, drainCalls_awaitEvents,
      drainCalls_finalFlatten]
    simp [drainCalls]
  · rw [htr]
    simp only [physDeleteCalls_append, physDeleteCalls_drainFlatten,
      physDeleteCalls_deleteStackEvents, physDeleteCalls_awaitEvents,
      physDeleteCalls_finalFlatten]
    simp [physDeleteCalls]

/-- C3: every purge run executes its entire assembled plan with
continue-on-error composition — the executed step sequence equals the plan
for every assignment of step outcomes, so no failure prevents a later step
— and purgeWorker returns nil unconditionally. -/
theorem purge_continue_on_error_success (env : PurgeEnv) (r : Step → Option String) :
    (purgeWorker env r).executed = (purgeWorker env r).plan
    ∧ (purgeWorker env r).result = none := by
  constructor
  · simp only [purgeWorker]
    exact newPipelineExecutorNoStop_executed _ _
  · simp only [purgeWorker]

/-- C6: a service stack contributes exactly two steps, the undeploy step
(serviceInput, carrying the `service` tag) first and then the service
terminator (serviceUndeployer) parameterized by the stack's `environment`
tag; an inventory of only that stack yields a two-step plan, the plan runs
in full, and the run reports success. -/
theorem single_service_stack_two_steps (st : Stack) (ns : String) (r : Step → Option String)
    (htype : tagsGet st.Tags "type" = "service")
    (hstatus : st.Status ≠ StackStatusRollbackComplete) :
    (purgeWorker { listStacks := Except.ok [st], ns := ns } r).plan
      = [Step.serviceInput (tagsGet st.Tags "service"),
         Step.serviceUndeployer ns (tagsGet st.Tags "environment")]
    ∧ (purgeWorker { listStacks := Except.ok [st], ns := ns } r).executed
      = (purgeWorker { listStacks := Except.ok [st], ns := ns } r).plan
    ∧ (purgeWorker { listStacks := Except.ok [st], ns := ns } r).result = none := by
  have hns : st.Status ≠ "ROLLBACK_COMPLETE" := by
    rw [StackStatusRollbackComplete] at hstatus
    exact hstatus
  have hremove : removeStacksByStatus [st] [StackStatusRollbackComplete] = [st] := by
    rw [removeStacksByStatus_eq_filter]
    simp [StackStatusRollbackComplete, hns]
  have hsvc : filterStacksByType [st] StackType.service = [st] := by
    rw [filterStacksByType_eq_filter]
    simp [htype, StackType.toStr]
  have henv : filterStacksByType [st] StackType.env = [] := by
    rw [filterStacksByType_eq_filter]
    simp [htype, StackType.toStr]
  have hpipe : filterStacksByType [st] StackType.pipeline = [] := by
    rw [filterStacksByType_eq_filter]
    simp [htype, StackType.toStr]
  have hbucket : filterStacksByType [st] StackType.bucket = [] := by
    rw [filterStacksByType_eq_filter]
    simp [htype, StackType.toStr]
  have hplan : purgePlan [st] ns
      = [Step.serviceInput (tagsGet st.Tags "service"),
         Step.serviceUndeployer ns (tagsGet st.Tags "environment")] := by
    rw [purgePlan_eq_flatten, hsvc, henv, hpipe, hbucket]
    simp
  refine ⟨?_, ?_, ?_⟩
  · simp only [purgeWorker]
    rw [hremove, hplan]
  · simp only [purgeWorker]
    exact newPipelineExecutorNoStop_executed _ _
  · simp only [purgeWorker]

/-- C7: when the inventory fetch fails, the run warns, and the whole
outcome is the one an empty inventory produces (empty plan, nothing
executed, nil result) except for the warning — the fetch error is not
returned. -/
theorem list_failure_noop_pass (env : PurgeEnv) (e : String) (r : Step → Option String)
    (h : env.listStacks = Except.error e) :
    (purgeWorker env r).warnedListFailure = true
    ∧ purgeWorker env r
        = { purgeWorker { listStacks := Except.ok [], ns := env.ns } r with
            warnedListFailure := true }
    ∧ (purgeWorker env r).plan = []
    ∧ (purgeWorker env r).result = none := by
  refine ⟨?_, ?_, ?_, ?_⟩ <;>
    simp [purgeWorker, h, removeStacksByStatus, purgePlan, filterStacksByType,
      newPipelineExecutorNoStop]

/-- C8 counterexample: ROLLBACK_COMPLETE is a terminal status that does not
indicate full success — the spec itself classes it among the rolled-back
(failed-rollback, non-actionable) states, and purgeWorker excludes such
stacks as non-deletable — yet a bucket workflow whose await returns it logs
no failed-status line at all, because the code only tests for the
"_COMPLETE" suffix. -/
theorem awaiting_status_claim_counterexample :
    specIndicatesFullSuccess "ROLLBACK_COMPLETE" = false
    ∧ envRolledBack.awaitFinalStatus = some stackRolledBack
    ∧ stackRolledBack.Status = "ROLLBACK_COMPLETE"
    ∧ stackRolledBack.StatusReason = "creation failed"
    ∧ failedStatusLogs (bucketTerminator stackLogsBucket envRolledBack).1 = [] := by
  refine ⟨by decide, rfl, rfl, rfl, ?_⟩
  rfl

/-- C8 (amended): after awaiting the terminal status, the workflow logs the
status together with its status reason exactly when the returned stack's
status does not end with the "_COMPLETE" suffix (so rollback-complete
states, though not full successes, are not logged), and it continues
without re-raising (nil result). -/
theorem failed_status_logging_suffix (b : Stack) (env : BucketEnv) (rs : List Resource) (st : Stack)
    (hres : env.getResourcesForStack = Except.ok rs)
    (hawait : env.awaitFinalStatus = some st) :
    failedStatusLogs (bucketTerminator b env).1
      = (if hasSuffix st.Status "_COMPLETE" then [] else [(st.Status, st.StatusReason)])
    ∧ (bucketTerminator b env).2 = none := by
  obtain ⟨htr, hret⟩ := bucketTerminator_ok_trace b env rs hres
  refine ⟨?_, hret⟩
  rw [htr]
  simp only [failedStatusLogs_append, failedStatusLogs_drainFlatten,
    failedStatusLogs_deleteStackEvents, failedStatusLogs_finalFlatten,
    failedStatusLogs_awaitEvents env st hawait]
  simp [failedStatusLogs]

/-- C9: the result of the bucket object drain is discarded entirely — the
workflow's whole observable outcome (trace, so also every log, and the
returned error) is invariant under any change of the drain collaborator's
results — and when resources did resolve it still proceeds to request the
stack deletion and returns nil, exactly as if the drain had succeeded. -/
theorem drain_error_discarded (b : Stack) (env : BucketEnv) (f : String → Except String Unit) :
    bucketTerminator b { env with deleteS3BucketObjects := f } = bucketTerminator b env
    ∧ ∀ rs : List Resource, env.getResourcesForStack = Except.ok rs →
        Event.callDeleteStack b.Name
          ∈ (bucketTerminator b { env with deleteS3BucketObjects := f }).1
        ∧ (bucketTerminator b { env with deleteS3BucketObjects := f }).2 = none := by
  have hinv : bucketTerminator b { env with deleteS3BucketObjects := f } = bucketTerminator b env := rfl
  refine ⟨hinv, ?_⟩
  intro rs hok
  obtain ⟨htr, hret⟩ := bucketTerminator_ok_trace b env rs hok
  rw [hinv, htr]
  exact ⟨by simp, hret⟩

/-- C10: if resource resolution fails, the bucket workflow returns that
error at once, its whole trace being just the resolution call and the info
log — no drain, no stack deletion, no await, no physical bucket deletion —
and returning an error implies resource resolution failed (it is the only
error path). -/
theorem resources_error_early_return (b : Stack) (env : BucketEnv) :
    (∀ e, env.getResourcesForStack = Except.error e →
        bucketTerminator b env = ([Event.callGetResources, Event.logInfoResources], some e))
    ∧ ∀ e, (bucketTerminator b env).2 = some e →
        env.getResourcesForStack = Except.error e := by
  constructor
  · intro e h
    exact bucketTerminator_error_eq b env e h
  · intro e h
    cases hres : env.getResourcesForStack with
    | error e2 =>
      rw [bucketTerminator_error_eq b env e2 hres] at h
      simp at h
      subst h
      rfl
    | ok rs =>
      obtain ⟨_, hret⟩ := bucketTerminator_ok_trace b env rs hres
      rw [hret] at h
      cases h

def envListError : PurgeEnv :=
  { listStacks := Except.error "list stacks failed", ns := "mu" }

/-- C2 witness: scenario C — a bucket stack with two physical resources,
DeleteStack failing, await reporting DELETE_FAILED and every physical
deletion failing. -/
theorem bucket_drain_before_delete_phys_always_witness :
    ∃ pre post,
      (bucketTerminator stackLogsBucket envTwoBuckets).1
        = pre ++ Event.callDeleteStack stackLogsBucket.Name :: post
      ∧ drainCalls pre = [resLogsA, resLogsB].map Resource.PhysicalResourceId
      ∧ drainCalls post = []
      ∧ physDeleteCalls (bucketTerminator stackLogsBucket envTwoBuckets).1
          = [resLogsA, resLogsB].map Resource.PhysicalResourceId :=
  bucket_drain_before_delete_phys_always stackLogsBucket envTwoBuckets [resLogsA, resLogsB] rfl

/-- C4 witness: a stack carrying no `type` tag is not selected by the
service filter. -/
theorem filter_by_type_exact_witness :
    stackNoType ∉ filterStacksByType [stackSvcWeb, stackNoType] StackType.service :=
  (filter_by_type_exact [stackSvcWeb, stackNoType] StackType.service).2 stackNoType rfl

/-- C6 witness: scenario A — the inventory holding only svc-web. -/
theorem single_service_stack_two_steps_witness :
    (purgeWorker { listStacks := Except.ok [stackSvcWeb], ns := "mu" } (fun _ => none)).plan
      = [Step.serviceInput (tagsGet stackSvcWeb.Tags "service"),
         Step.serviceUndeployer "mu" (tagsGet stackSvcWeb.Tags "environment")]
    ∧ (purgeWorker { listStacks := Except.ok [stackSvcWeb], ns := "mu" } (fun _ => none)).executed
      = (purgeWorker { listStacks := Except.ok [stackSvcWeb], ns := "mu" } (fun _ => none)).plan
    ∧ (purgeWorker { listStacks := Except.ok [stackSvcWeb], ns := "mu" } (fun _ => none)).result = none :=
  single_service_stack_two_steps stackSvcWeb "mu" (fun _ => none) rfl (by decide)

/-- C7 witness: a failing inventory fetch. -/
theorem list_failure_noop_pass_witness :
    (purgeWorker envListError (fun _ => none)).warnedListFailure = true
    ∧ purgeWorker envListError (fun _ => none)
        = { purgeWorker { listStacks := Except.ok [], ns := envListError.ns } (fun _ => none) with
            warnedListFailure := true }
    ∧ (purgeWorker envListError (fun _ => none)).plan = []
    ∧ (purgeWorker envListError (fun _ => none)).result = none :=
  list_failure_noop_pass envListError "list stacks failed" (fun _ => none) rfl

/-- C8 witness: an await returning DELETE_FAILED is logged with its
status reason. -/
theorem failed_status_logging_suffix_witness :
    failedStatusLogs (bucketTerminator stackLogsBucket
        { getResourcesForStack := Except.ok []
          deleteS3BucketObjects := fun _ => Except.ok ()
          deleteStack := Except.ok ()
          awaitFinalStatus := some stackDeleteFailed
          deleteS3Bucket := fun _ => Except.ok () }).1
      = (if hasSuffix stackDeleteFailed.Status "_COMPLETE" then []
         else [(stackDeleteFailed.Status, stackDeleteFailed.StatusReason)])
    ∧ (bucketTerminator stackLogsBucket
        { getResourcesForStack := Except.ok []
          deleteS3BucketObjects := fun _ => Except.ok ()
          deleteStack := Except.ok ()
          awaitFinalStatus := some stackDeleteFailed
          deleteS3Bucket := fun _ => Except.ok () }).2 = none :=
  failed_status_logging_suffix stackLogsBucket
    { getResourcesForStack := Except.ok []
      deleteS3BucketObjects := fun _ => Except.ok ()
      deleteStack := Except.ok ()
      awaitFinalStatus := some stackDeleteFailed
      deleteS3Bucket := fun _ => Except.ok () } [] stackDeleteFailed rfl rfl

/-- C9 witness: with every drain call failing, the workflow still reaches
DeleteStack and returns nil. -/
theorem drain_error_discarded_witness :
    Event.callDeleteStack stackLogsBucket.Name
      ∈ (bucketTerminator stackLogsBucket
          { envTwoBuckets with deleteS3BucketObjects := fun _ => Except.error "drain failed" }).1
    ∧ (bucketTerminator stackLogsBucket
        { envTwoBuckets with deleteS3BucketObjects := fun _ => Except.error "drain failed" }).2
      = none :=
  (drain_error_discarded stackLogsBucket envTwoBuckets
    (fun _ => Except.error "drain failed")).2 [resLogsA, resLogsB] rfl

/-- C10 witness: a failing resource resolution is returned at once with the
two-event trace. -/
theorem resources_error_early_return_witness :
    bucketTerminator stackLogsBucket envResourcesError
      = ([Event.callGetResources, Event.logInfoResources], some "describe resources failed") :=
  (resources_error_early_return stackLogsBucket envResourcesError).1
    "describe resources failed" rfl
